import Mathlib

/-!
# Verification of the DiscordActivity game-economy engines

Shallow embedding of the core engines of the repository:
* pari-mutuel settlement (`reportResult` in `PublicLobby.tsx` / `ProLobby.tsx`),
* Elo rating updates (`src/lib/elo.ts`),
* serpentine snake draft (`SnakeDraft.tsx`),
* pro-lobby captain draft (`ProLobby.tsx`),
* single-elimination bracket (`Bracket.tsx`),
* public-lobby countdown state machine (`PublicLobby.tsx`),
* auction draft bidding (`AuctionDraft.tsx`).

JavaScript numbers are idealized: integer-valued quantities (stakes, wallets,
ratings, timers) are embedded as `ℕ`/`ℤ`, and the transcendental Elo formula
over `ℝ`.  JavaScript objects used as string-keyed maps are embedded as
functions `String → Option _`; object spread update `{...prev, [k]: v}` is
function update.
-/

namespace DiscordActivity

/-! ## Pari-mutuel settlement

Embeds the settlement block of `reportResult` (identical in
`src/components/lobby/PublicLobby.tsx` lines 159–175 and
`src/components/lobby/ProLobby.tsx` lines 201–217):

```js
const pool = bets.reduce((s, b) => s + b.amount, 0);
const winners = bets.filter((b) => b.side === winner);
const winnersSum = winners.reduce((s, b) => s + b.amount, 0);
if (pool > 0 && winnersSum > 0) {
  const winningsByUser = new Map<string, number>();
  winners.forEach((b) => {
    const share = Math.floor((b.amount / winnersSum) * pool);
    winningsByUser.set(b.bettorId, (winningsByUser.get(b.bettorId) || 0) + share);
  });
  ...
}
```

Stake amounts are positive integers at placement (`placeBet` requires
`betAmount > 0` after `parseInt`), so amounts are `ℕ` and
`Math.floor((b.amount / winnersSum) * pool)` is exact rational
`⌊amount · pool / winnersSum⌋`, i.e. `ℕ` division `amount * pool / winnersSum`.
-/

/-- Betting side, the `'A' | 'B'` union type of the lobby components. -/
inductive Side where
  | A : Side
  | B : Side
deriving DecidableEq, Repr

/-- `LobbyBet` record from `PublicLobby.tsx` / `ProLobby.tsx`. -/
structure LobbyBet where
  bettorId : String
  side : Side
  amount : ℕ
deriving DecidableEq, Repr

/-- `const pool = bets.reduce((s, b) => s + b.amount, 0)`. -/
def betPool (bets : List LobbyBet) : ℕ :=
  (bets.map (·.amount)).sum

/-- `const winners = bets.filter((b) => b.side === winner)`. -/
def winningBets (bets : List LobbyBet) (winner : Side) : List LobbyBet :=
  bets.filter (fun b => b.side = winner)

/-- `const winnersSum = winners.reduce((s, b) => s + b.amount, 0)`. -/
def winnersSum (bets : List LobbyBet) (winner : Side) : ℕ :=
  ((winningBets bets winner).map (·.amount)).sum

/-- Aggregated payout of one bettor: the `winningsByUser` entry accumulated
over that bettor's winning bets, each contributing
`Math.floor((b.amount / winnersSum) * pool)`; guarded by
`if (pool > 0 && winnersSum > 0)` — otherwise nobody is paid. -/
def payout (bets : List LobbyBet) (winner : Side) (bettor : String) : ℕ :=
  let P := betPool bets
  let W := winnersSum bets winner
  if 0 < P ∧ 0 < W then
    (((winningBets bets winner).filter (fun b => b.bettorId = bettor)).map
      (fun b => b.amount * P / W)).sum
  else 0

/-- Sum of all payouts over the distinct bettors appearing in the bet list. -/
def totalPayout (bets : List LobbyBet) (winner : Side) : ℕ :=
  ∑ k ∈ (bets.map (·.bettorId)).toFinset, payout bets winner k

/-- Partitioning a list sum by key: summing, over a key set covering the list,
the sums of the fibers recovers the total. -/
lemma sum_fiber_filter {α β : Type} [DecidableEq β]
    (l : List α) (s : Finset β) (key : α → β) (f : α → ℕ)
    (h : ∀ x ∈ l, key x ∈ s) :
    (∑ k ∈ s, ((l.filter (fun x => key x = k)).map f).sum) = (l.map f).sum := by
  induction l with
  | nil => simp
  | cons x xs ih =>
    have hx : key x ∈ s := h x (by simp)
    have hxs : ∀ y ∈ xs, key y ∈ s := fun y hy => h y (by simp [hy])
    have hsplit : ∀ k : β,
        ((List.filter (fun y => decide (key y = k)) (x :: xs)).map f).sum
          = (if key x = k then f x else 0)
            + ((xs.filter (fun y => key y = k)).map f).sum := by
      intro k
      by_cases hk : key x = k
      · simp [List.filter_cons, hk]
      · simp [List.filter_cons, hk]
    calc (∑ k ∈ s, ((List.filter (fun y => decide (key y = k)) (x :: xs)).map f).sum)
        = ∑ k ∈ s, ((if key x = k then f x else 0)
            + ((xs.filter (fun y => key y = k)).map f).sum) := by
          exact Finset.sum_congr rfl (fun k _ => hsplit k)
      _ = (∑ k ∈ s, if key x = k then f x else 0)
            + ∑ k ∈ s, ((xs.filter (fun y => key y = k)).map f).sum := by
          rw [Finset.sum_add_distrib]
      _ = f x + (xs.map f).sum := by
          rw [ih hxs]
          congr 1
          simp [Finset.sum_ite_eq' s (key x) (fun _ => f x), hx]
      _ = ((x :: xs).map f).sum := by simp

/-- Scaled floor sums: `∑ aᵢ·P/W ≤ (∑ aᵢ)·P/W`-style bound via multiplication. -/
lemma sum_div_mul_le (l : List ℕ) (P W : ℕ) :
    ((l.map (fun a => a * P / W)).sum) * W ≤ l.sum * P := by
  induction l with
  | nil => simp
  | cons a as ih =>
    simp only [List.map_cons, List.sum_cons, add_mul]
    have h1 : a * P / W * W ≤ a * P := Nat.div_mul_le_self (a * P) W
    exact Nat.add_le_add h1 ih

/-- The per-winning-bet shares sum to at most the pool. -/
lemma shares_le_pool (bets : List LobbyBet) (winner : Side)
    (hW : 0 < winnersSum bets winner) :
    (((winningBets bets winner).map
      (fun b => b.amount * betPool bets / winnersSum bets winner)).sum)
      ≤ betPool bets := by
  set P := betPool bets
  set W := winnersSum bets winner
  have key : (((winningBets bets winner).map (fun b => b.amount * P / W)).sum) * W
      ≤ W * P := by
    have h1 : (((winningBets bets winner).map (fun b => b.amount * P / W)).sum) * W
        ≤ (((winningBets bets winner).map (·.amount)).sum) * P := by
      have := sum_div_mul_le ((winningBets bets winner).map (·.amount)) P W
      simpa [List.map_map, Function.comp] using this
    have h2 : ((winningBets bets winner).map (·.amount)).sum = W := rfl
    calc (((winningBets bets winner).map (fun b => b.amount * P / W)).sum) * W
        ≤ (((winningBets bets winner).map (·.amount)).sum) * P := h1
      _ = W * P := by rw [h2]
  have hP : (((winningBets bets winner).map (fun b => b.amount * P / W)).sum) * W
      ≤ P * W := by
    calc (((winningBets bets winner).map (fun b => b.amount * P / W)).sum) * W
        ≤ W * P := key
      _ = P * W := Nat.mul_comm W P
  exact Nat.le_of_mul_le_mul_right hP hW

/-- Total payout equals the sum of per-winning-bet shares when settlement runs. -/
lemma totalPayout_eq_shares (bets : List LobbyBet) (winner : Side)
    (hP : 0 < betPool bets) (hW : 0 < winnersSum bets winner) :
    totalPayout bets winner
      = (((winningBets bets winner).map
          (fun b => b.amount * betPool bets / winnersSum bets winner)).sum) := by
  unfold totalPayout payout
  simp only [if_pos (And.intro hP hW)]
  apply sum_fiber_filter (winningBets bets winner)
    ((bets.map (·.bettorId)).toFinset) (·.bettorId)
    (fun b => b.amount * betPool bets / winnersSum bets winner)
  intro b hb
  have hmem : b ∈ bets := List.mem_of_mem_filter hb
  simp only [List.mem_toFinset, List.mem_map]
  exact ⟨b, hmem, rfl⟩

/-- **C1**: for every list of bets and every winning side, settlement pays
zero to every bettor all of whose bets were on the losing side, pays nothing
at all when the winners' stake sum is zero or the pool is zero, and the
total of all aggregated payouts is at most the pool. -/
theorem settle_pays_at_most_pool (bets : List LobbyBet) (winner : Side) :
    totalPayout bets winner ≤ betPool bets
    ∧ (∀ bettor : String,
        (∀ b ∈ bets, b.bettorId = bettor → b.side ≠ winner) →
        payout bets winner bettor = 0)
    ∧ ((winnersSum bets winner = 0 ∨ betPool bets = 0) →
        ∀ bettor : String, payout bets winner bettor = 0) := by
  refine ⟨?_, ?_, ?_⟩
  · by_cases hP : 0 < betPool bets
    · by_cases hW : 0 < winnersSum bets winner
      · rw [totalPayout_eq_shares bets winner hP hW]
        exact shares_le_pool bets winner hW
      · have hnc : ¬ (0 < betPool bets ∧ 0 < winnersSum bets winner) := by
          intro hcc; exact hW hcc.2
        have hz : ∀ k ∈ (bets.map (·.bettorId)).toFinset,
            payout bets winner k = 0 := by
          intro k _
          unfold payout
          simp only [if_neg hnc]
        unfold totalPayout
        rw [Finset.sum_congr rfl hz]
        simp
    · have hnc : ¬ (0 < betPool bets ∧ 0 < winnersSum bets winner) := by
        intro hcc; exact hP hcc.1
      have hz : ∀ k ∈ (bets.map (·.bettorId)).toFinset,
          payout bets winner k = 0 := by
        intro k _
        unfold payout
        simp only [if_neg hnc]
      unfold totalPayout
      rw [Finset.sum_congr rfl hz]
      simp
  · intro bettor hlose
    unfold payout
    by_cases hc : 0 < betPool bets ∧ 0 < winnersSum bets winner
    · simp only [if_pos hc]
      have hnil : ((winningBets bets winner).filter
          (fun b => b.bettorId = bettor)) = [] := by
        rw [List.filter_eq_nil_iff]
        intro b hb
        have hbw : b ∈ bets ∧ b.side = winner := by
          constructor
          · exact List.mem_of_mem_filter hb
          · have := List.of_mem_filter hb
            simpa using this
        intro hid
        exact absurd hbw.2 (hlose b hbw.1 (by simpa using hid))
      rw [hnil]
      simp
    · simp only [if_neg hc]
  · intro h0 bettor
    unfold payout
    have hc : ¬ (0 < betPool bets ∧ 0 < winnersSum bets winner) := by
      rcases h0 with h | h
      · intro hc; exact absurd h (Nat.pos_iff_ne_zero.mp hc.2)
      · intro hc; exact absurd h (Nat.pos_iff_ne_zero.mp hc.1)
    simp only [if_neg hc]

/-- Witness for C1 at the spec's end-to-end example: bets of 60 on A and 40
on B, A wins; the A bettor receives the whole pool of 100, the B bettor 0. -/
theorem settle_pays_at_most_pool_witness :
    totalPayout [⟨"alice", Side.A, 60⟩, ⟨"bob", Side.B, 40⟩] Side.A
        ≤ betPool [⟨"alice", Side.A, 60⟩, ⟨"bob", Side.B, 40⟩]
    ∧ payout [⟨"alice", Side.A, 60⟩, ⟨"bob", Side.B, 40⟩] Side.A "bob" = 0 := by
  refine ⟨(settle_pays_at_most_pool _ Side.A).1, ?_⟩
  exact (settle_pays_at_most_pool
    [⟨"alice", Side.A, 60⟩, ⟨"bob", Side.B, 40⟩] Side.A).2.1 "bob" (by decide)

/-! ## Elo rating engine (`src/lib/elo.ts`)

JavaScript numbers are idealized as `ℝ`; ratings are integer-valued
throughout the system (initialized to 1000 and produced by `Math.round`), so
`Player.elo` is `ℤ` and the transcendental Elo formula is computed over `ℝ`.
The player `Map` is embedded as `String → Option Player` (`new Map(players)`
copies; `.get` is application, `.set` is `Function.update`). -/

/-- `Player` record from `src/types.ts` (the optional `stats` field is
not consumed by any engine modelled here). -/
structure Player where
  id : String
  name : String
  elo : ℤ
  wallet : ℤ
deriving DecidableEq, Repr

/-- `expectedScore(ratingA, ratingB) = 1 / (1 + 10^((ratingB-ratingA)/400))`. -/
noncomputable def expectedScore (ratingA ratingB : ℝ) : ℝ :=
  1 / (1 + (10 : ℝ) ^ ((ratingB - ratingA) / 400))

/-- `avg(arr)`: `if (!arr.length) return 0;` then sum / length. -/
noncomputable def avg (arr : List ℝ) : ℝ :=
  if arr.length = 0 then 0 else arr.sum / arr.length

/-- JavaScript `x || d` on a number: yields `d` when `x` is falsy (here: 0). -/
noncomputable def jsOr (x d : ℝ) : ℝ :=
  if x = 0 then d else x

/-- JavaScript `Math.round`: rounds half toward positive infinity. -/
noncomputable def jsRound (x : ℝ) : ℤ :=
  ⌊x + 1 / 2⌋

/-- The `forEach` update loop of `updateTeamElo`: for each id, if the map has
a player, replace it with the rating bumped by `delta` and rounded
(`next.set(id, { ...p, elo: Math.round(p.elo + delta) })`). -/
noncomputable def applyEloDelta (ids : List String) (delta : ℝ)
    (m : String → Option Player) : String → Option Player :=
  ids.foldl (fun acc id =>
    match acc id with
    | some p => Function.update acc id (some { p with elo := jsRound ((p.elo : ℝ) + delta) })
    | none => acc) m

/-- `updateTeamElo(winnerIds, loserIds, players, k = 28)` from `src/lib/elo.ts`.

Note on division by zero: for an empty team, JavaScript computes
`winDeltaTeam / 0 = ±Infinity` where Lean's real division yields `0`; the
quotient is consumed only by the `forEach` over that same (empty) team's ids,
so it is dead code in both semantics and the returned map is identical. -/
noncomputable def updateTeamElo (winnerIds loserIds : List String)
    (players : String → Option Player) (k : ℝ := 28) : String → Option Player :=
  let winnerAvg := jsOr
    (avg (winnerIds.map (fun id => ((players id).map (fun p => (p.elo : ℝ))).getD 1000))) 1000
  let loserAvg := jsOr
    (avg (loserIds.map (fun id => ((players id).map (fun p => (p.elo : ℝ))).getD 1000))) 1000
  let expWin := expectedScore winnerAvg loserAvg
  let expLose := 1 - expWin
  let winDeltaTeam := k * (1 - expWin)
  let loseDeltaTeam := k * (0 - expLose)
  let winPerPlayer := winDeltaTeam / (winnerIds.length : ℝ)
  let losePerPlayer := loseDeltaTeam / (loserIds.length : ℝ)
  applyEloDelta loserIds losePerPlayer (applyEloDelta winnerIds winPerPlayer players)

/-- A one-player map used to exercise `updateTeamElo` on degenerate teams. -/
def onePlayerMap : String → Option Player :=
  fun id => if id = "p1" then some ⟨"p1", "P1", 1000, 0⟩ else none

/-- **C2 counterexample**: calling `updateTeamElo` with an empty winner list
and an empty loser list does not raise any error — it returns the player map
unchanged; the function body contains no team-size validation. -/
theorem updateTeamElo_empty_teams_counterexample :
    updateTeamElo [] [] onePlayerMap = onePlayerMap := rfl

/-- **C2 (amended)**: `updateTeamElo` performs no team-size validation and
never fails: with both teams empty it returns the player map unchanged, and
with an empty winner team and a non-empty loser team it still returns
normally, applying the per-player delta to the losers (the empty team's
divided-by-zero delta is never consumed). -/
theorem updateTeamElo_zero_team_size_returns_normally
    (players : String → Option Player) (k : ℝ) (loserIds : List String) :
    updateTeamElo [] [] players k = players
    ∧ updateTeamElo [] loserIds players k
        = applyEloDelta loserIds
            (k * (0 - (1 - expectedScore 1000
              (jsOr (avg (loserIds.map (fun id =>
                ((players id).map (fun p => (p.elo : ℝ))).getD 1000))) 1000)))
              / (loserIds.length : ℝ))
            players := by
  constructor
  · rfl
  · unfold updateTeamElo
    simp [avg, jsOr, applyEloDelta]

/-- Witness for the amended C2 theorem: the empty-vs-["p1"] call completes
and lowers the lone loser's rating from 1000 to 986 (delta `28·(0−1/2)/1`). -/
theorem updateTeamElo_zero_team_size_returns_normally_witness :
    updateTeamElo [] [] onePlayerMap 28 = onePlayerMap
    ∧ updateTeamElo [] ["p1"] onePlayerMap 28 "p1" = some ⟨"p1", "P1", 986, 0⟩ := by
  refine ⟨(updateTeamElo_zero_team_size_returns_normally onePlayerMap 28 []).1, ?_⟩
  rw [(updateTeamElo_zero_team_size_returns_normally onePlayerMap 28 ["p1"]).2]
  have havg : avg (["p1"].map (fun id =>
      ((onePlayerMap id).map (fun p => (p.elo : ℝ))).getD 1000)) = 1000 := by
    simp [avg, onePlayerMap]
  have hjs : jsOr (1000 : ℝ) 1000 = 1000 := by norm_num [jsOr]
  have hexp : expectedScore 1000 1000 = 1 / 2 := by
    unfold expectedScore
    rw [show ((1000 : ℝ) - 1000) / 400 = 0 by norm_num, Real.rpow_zero]
    norm_num
  have hD : (28 : ℝ) * (0 - (1 - expectedScore 1000
      (jsOr (avg (["p1"].map (fun id =>
        ((onePlayerMap id).map (fun p => (p.elo : ℝ))).getD 1000))) 1000)))
      / ((["p1"].length : ℕ) : ℝ) = -14 := by
    rw [havg, hjs, hexp]
    norm_num
  rw [show applyEloDelta ["p1"] (28 * (0 - (1 - expectedScore 1000
      (jsOr (avg (["p1"].map (fun id =>
        ((onePlayerMap id).map (fun p => (p.elo : ℝ))).getD 1000))) 1000)))
      / ((["p1"].length : ℕ) : ℝ)) onePlayerMap
    = applyEloDelta ["p1"] (-14) onePlayerMap from by rw [hD]]
  unfold applyEloDelta
  have hp1 : onePlayerMap "p1" = some ⟨"p1", "P1", 1000, 0⟩ := by
    simp [onePlayerMap]
  simp only [List.foldl, hp1, Function.update_same]
  have hround : jsRound (((1000 : ℤ) : ℝ) + (-14)) = 986 := by
    unfold jsRound
    rw [show (((1000 : ℤ) : ℝ) + (-14)) + 1 / 2 = 986 + 1 / 2 by norm_num]
    rw [Int.floor_eq_iff]
    constructor
    · norm_num
    · norm_num
  rw [hround]

/-! ## Snake draft (`src/components/tournament/modes/SnakeDraft.tsx`)

The `picks` state is a JavaScript object used as an insertion-ordered map
`teamName → string[]`; it is embedded as an association list. `prev[team]`
is `objLookup`, `{ ...prev, [team]: v }` is `objSet` (replaces in place when
the key exists, appends otherwise), `Object.values` is `List.map (·.2)`. -/

/-- JavaScript object lookup `m[k]` (`undefined` ↦ `none`). -/
def objLookup {α : Type} (m : List (String × α)) (k : String) : Option α :=
  (m.find? (fun e => e.1 = k)).map (·.2)

/-- JavaScript object spread update `{ ...m, [k]: v }`. -/
def objSet {α : Type} (m : List (String × α)) (k : String) (v : α) :
    List (String × α) :=
  if (m.find? (fun e => e.1 = k)).isSome then
    m.map (fun e => if e.1 = k then (k, v) else e)
  else m ++ [(k, v)]

/-- Snake-draft component state: `rounds` (players per team) and `picks`. -/
structure SnakeState where
  rounds : ℕ
  picks : List (String × List String)
deriving DecidableEq, Repr

/-- `Object.values(picks).reduce((s, arr) => s + arr.length, 0)`. -/
def totalPicks (st : SnakeState) : ℕ :=
  (st.picks.map (fun e => e.2.length)).sum

/-- `currentPicker()` from `SnakeDraft.tsx` lines 59–66, as a function of the
owner order and the number of picks made so far. -/
def currentPicker (ownerOrder : List String) (totalPicks : ℕ) : Option String :=
  let round := totalPicks / ownerOrder.length
  let index := totalPicks % ownerOrder.length
  let order := if round % 2 = 0 then ownerOrder else ownerOrder.reverse
  order[index]?

/-- `pick(playerId)` from `SnakeDraft.tsx` lines 68–76. -/
def snakePick (owners : List String) (st : SnakeState) (playerId : String) :
    SnakeState :=
  match currentPicker owners (totalPicks st) with
  | none => st
  | some team =>
      let arr := (objLookup st.picks team).getD []
      if st.rounds ≤ arr.length then st
      else { st with picks := objSet st.picks team (arr ++ [playerId]) }

/-- **C3**: the snake draft picker for pick index `p` is the owner at position
`p % ownerCount` when `⌊p / ownerCount⌋` is even and the owner at position
`ownerCount − 1 − (p % ownerCount)` when it is odd; with owners
`[A, B, C, D]` the first 12 picks are `A,B,C,D,D,C,B,A,A,B,C,D`. -/
theorem currentPicker_serpentine (ownerOrder : List String) (p : ℕ)
    (h : 0 < ownerOrder.length) :
    (currentPicker ownerOrder p =
      if (p / ownerOrder.length) % 2 = 0 then ownerOrder[p % ownerOrder.length]?
      else ownerOrder[ownerOrder.length - 1 - p % ownerOrder.length]?)
    ∧ (List.range 12).map (currentPicker ["A", "B", "C", "D"]) =
        [some "A", some "B", some "C", some "D",
         some "D", some "C", some "B", some "A",
         some "A", some "B", some "C", some "D"] := by
  constructor
  · unfold currentPicker
    by_cases hr : (p / ownerOrder.length) % 2 = 0
    · simp [hr]
    · have hlt : p % ownerOrder.length < ownerOrder.length := Nat.mod_lt _ h
      simp only [hr, if_false]
      rw [List.getElem?_reverse hlt]
  · decide

/-- Witness for C3 at owners `[A,B,C,D]`, pick index 6 (round 1, reversed):
the picker is the owner at position `4 − 1 − 6 % 4 = 1`, i.e. `B`. -/
theorem currentPicker_serpentine_witness :
    (currentPicker ["A", "B", "C", "D"] 6 =
      if (6 / 4) % 2 = 0 then (["A", "B", "C", "D"] : List String)[6 % 4]?
      else (["A", "B", "C", "D"] : List String)[4 - 1 - 6 % 4]?)
    ∧ (List.range 12).map (currentPicker ["A", "B", "C", "D"]) =
        [some "A", some "B", some "C", some "D",
         some "D", some "C", some "B", some "A",
         some "A", some "B", some "C", some "D"] := by
  have h := currentPicker_serpentine ["A", "B", "C", "D"] 6 (by decide)
  exact ⟨by simpa using h.1, h.2⟩

/-! ## Pro-lobby captain draft (`src/components/lobby/ProLobby.tsx`)

Only the draft-relevant slice of the component state is embedded here (the
countdown/vote machinery mirrors the public lobby, modelled below).  The
source keeps `Player` objects in `teamA`/`teamB`; players are identified by
their `id` string everywhere, so the embedding records the ids. -/

/-- Draft-relevant `ProLobby` state. -/
structure ProState where
  poolIds : List String
  inProgress : Bool
  draftComplete : Bool
  teamA : List String
  teamB : List String
  currentTurn : Side
  draftOrder : ℕ
deriving DecidableEq, Repr

/-- `const pool = poolIds.map((id) => players.find((p) => p.id === id)).filter(Boolean)`. -/
def proPool (players : List Player) (st : ProState) : List Player :=
  st.poolIds.filterMap (fun id => players.find? (fun p => p.id = id))

/-- `draftPlayer(playerId)` from `ProLobby.tsx` lines 144–159. -/
def draftPlayer (players : List Player) (st : ProState) (playerId : String) :
    ProState :=
  if st.inProgress = false ∨ st.draftComplete = true then st
  else
    match (proPool players st).find? (fun p => p.id = playerId) with
    | none => st
    | some _ =>
        match st.currentTurn with
        | Side.A => { st with teamA := st.teamA ++ [playerId],
                              currentTurn := Side.B,
                              draftOrder := st.draftOrder + 1 }
        | Side.B => { st with teamB := st.teamB ++ [playerId],
                              currentTurn := Side.A,
                              draftOrder := st.draftOrder + 1 }

/-- Snake state in which team `TeamA` has already drafted `p1`. -/
def snakeSt0 : SnakeState := ⟨3, [("TeamA", ["p1"])]⟩

/-- Player list for the pro-lobby draft scenarios. -/
def proPlayers0 : List Player :=
  [⟨"c1", "C1", 1200, 0⟩, ⟨"c2", "C2", 1100, 0⟩, ⟨"p1", "P1", 1000, 0⟩]

/-- Pro-lobby drafting state: captains `c1`/`c2`, `p1` already on team A,
team B to pick. -/
def proSt0 : ProState :=
  ⟨["c1", "c2", "p1"], true, false, ["c1", "p1"], ["c2"], Side.B, 1⟩

/-- Pro-lobby drafting state with team A to pick and `p1` already on team A. -/
def proSt1 : ProState :=
  ⟨["c1", "c2", "p1"], true, false, ["c1", "p1"], ["c2"], Side.A, 1⟩

/-- **C4 counterexample**: neither draft operation rejects an already-drafted
player or an owner/captain.  In the snake draft, picking `p1` again places it
on `TeamB` although `TeamA` already holds it; in the pro lobby, drafting the
already-drafted `p1` appends it to team B, and drafting captain `c1` (seeded
on team A) appends the captain to team B — so a player identifier can appear
in two teams' lists. -/
theorem draft_duplicate_not_rejected_counterexample :
    (snakePick ["TeamA", "TeamB"] snakeSt0 "p1").picks
        = [("TeamA", ["p1"]), ("TeamB", ["p1"])]
    ∧ (draftPlayer proPlayers0 proSt0 "p1").teamB = ["c2", "p1"]
    ∧ (draftPlayer proPlayers0 proSt0 "c1").teamB = ["c2", "c1"] := by
  decide

/-- **C4 (amended)**: the draft operations' only guards are roster fullness
(snake), drafting phase and pool membership (pro).  A pick is rejected as a
no-op exactly when the current team's roster is full (snake) or when the
lobby is not drafting / the id is not in the pool (pro); in every other case
the player id is appended to the current team's list with no check against
owners or prior drafting, so uniqueness of a player across teams is not
enforced by the operations (only by the UI's filtered player listing). -/
theorem draft_guards_amended :
    (∀ (owners : List String) (st : SnakeState) (pid team : String),
      currentPicker owners (totalPicks st) = some team →
      st.rounds ≤ ((objLookup st.picks team).getD []).length →
      snakePick owners st pid = st)
    ∧ (∀ (owners : List String) (st : SnakeState) (pid team : String),
      currentPicker owners (totalPicks st) = some team →
      ((objLookup st.picks team).getD []).length < st.rounds →
      (snakePick owners st pid).picks
        = objSet st.picks team (((objLookup st.picks team).getD []) ++ [pid]))
    ∧ (∀ (players : List Player) (st : ProState) (pid : String),
      st.inProgress = false ∨ st.draftComplete = true →
      draftPlayer players st pid = st)
    ∧ (∀ (players : List Player) (st : ProState) (pid : String) (q : Player),
      st.inProgress = true → st.draftComplete = false →
      (proPool players st).find? (fun p => p.id = pid) = some q →
      st.currentTurn = Side.A →
      (draftPlayer players st pid).teamA = st.teamA ++ [pid]) := by
  refine ⟨?_, ?_, ?_, ?_⟩
  · intro owners st pid team hpick hfull
    unfold snakePick
    rw [hpick]
    simp [hfull]
  · intro owners st pid team hpick hroom
    unfold snakePick
    rw [hpick]
    simp [Nat.not_le.mpr hroom]
  · intro players st pid hoff
    unfold draftPlayer
    rcases hoff with h | h <;> simp [h]
  · intro players st pid q hin hnc hfind hturn
    unfold draftPlayer
    simp [hin, hnc, hfind, hturn]

/-- Witness for the amended C4 theorem on concrete states: a full roster is
rejected, a non-drafting lobby is rejected, and in-pool picks append without
any duplicate check. -/
theorem draft_guards_amended_witness :
    snakePick ["TeamA"] ⟨1, [("TeamA", ["p9"])]⟩ "x"
        = (⟨1, [("TeamA", ["p9"])]⟩ : SnakeState)
    ∧ (snakePick ["TeamA", "TeamB"] snakeSt0 "p1").picks
        = objSet snakeSt0.picks "TeamB"
            (((objLookup snakeSt0.picks "TeamB").getD []) ++ ["p1"])
    ∧ draftPlayer proPlayers0 ⟨["p1"], false, false, [], [], Side.A, 0⟩ "p1"
        = (⟨["p1"], false, false, [], [], Side.A, 0⟩ : ProState)
    ∧ (draftPlayer proPlayers0 proSt1 "p1").teamA = proSt1.teamA ++ ["p1"] := by
  refine ⟨?_, ?_, ?_, ?_⟩
  · exact draft_guards_amended.1 ["TeamA"] _ "x" "TeamA" (by decide) (by decide)
  · exact draft_guards_amended.2.1 ["TeamA", "TeamB"] snakeSt0 "p1" "TeamB"
      (by decide) (by decide)
  · exact draft_guards_amended.2.2.1 proPlayers0 _ "p1" (Or.inl rfl)
  · exact draft_guards_amended.2.2.2 proPlayers0 proSt1 "p1" ⟨"p1", "P1", 1000, 0⟩
      rfl rfl (by decide) rfl

/-! ## Single-elimination bracket
(`src/components/tournament/bracket/Bracket.tsx`)

The bracket is recompute-on-read: the node layers are a pure function of the
team list and the accumulated `results` map.  During every evaluation the
component re-writes the round-1 bye auto-results into the `results` state
(`setResult(match.id, ..., '')` inside the `computed` memo), so in the
stabilized state every read of a round-1 node with a bye pairing yields the
auto entry, overriding any other value at that key; `stableAt` captures
exactly this read semantics.  Node ids are the strings `R{round}-{index}`
of the source.  A slot of the TS type `a?: string` is `Option String`;
JavaScript truthiness of a slot means: defined and non-empty. -/

/-- `nextPowerOfTwo` loop: doubling accumulator until it reaches `n`.  Fuel
`n` suffices since `n ≤ 2^n`. -/
def nextPowerOfTwoGo : ℕ → ℕ → ℕ → ℕ
  | 0, _, acc => acc
  | fuel + 1, n, acc => if n ≤ acc then acc else nextPowerOfTwoGo fuel n (acc * 2)

/-- `nextPowerOfTwo(n)` from `Bracket.tsx` lines 121–125:
`if (n < 1) return 1; return 1 << Math.ceil(Math.log2(n));` — the least
power of two that is `≥ n`, computed here by doubling from 1 so that the
kernel can evaluate it. -/
def nextPowerOfTwo (n : ℕ) : ℕ :=
  if n < 1 then 1 else nextPowerOfTwoGo n n 1

/-- `const padded = [...teamNames]; while (padded.length < slots) padded.push('BYE')`. -/
def paddedTeams (teamNames : List String) : List String :=
  teamNames ++ List.replicate (nextPowerOfTwo teamNames.length - teamNames.length) "BYE"

/-- The pairing loop `for (i = 0; i < padded.length; i += 2)
pairs.push([padded[i], padded[i + 1]])`; on an odd-length list the final
`padded[i + 1]` is `undefined` (`none`). -/
def pairUp : List String → List (Option String × Option String)
  | [] => []
  | [a] => [(some a, none)]
  | a :: b :: rest => (some a, some b) :: pairUp rest

/-- Round-1 pairs of the bracket built from `teamNames`. -/
def bracketPairs (teamNames : List String) : List (Option String × Option String) :=
  pairUp (paddedTeams teamNames)

/-- The `rounds` memo sizes: starting from the round-1 node count `L`, halve
(rounding up, as the `i += 2` loop does) while more than one node remains.
Fuel `L` bounds the number of halvings. -/
def roundSizesGo : ℕ → ℕ → List ℕ
  | 0, L => [L]
  | fuel + 1, L => if L ≤ 1 then [L] else L :: roundSizesGo fuel ((L + 1) / 2)

/-- List of node counts per round. -/
def roundSizes (L : ℕ) : List ℕ :=
  roundSizesGo L L

/-- Number of rounds of the bracket built from `teamNames`. -/
def numRounds (teamNames : List String) : ℕ :=
  (roundSizes (bracketPairs teamNames).length).length

/-- One entry of the `results` state:
`{ [id: string]: { winner?: string; score?: string } }`; `setResult` always
writes both fields, so an entry present in the map has both strings. -/
structure MatchEntry where
  winner : String
  score : String
deriving DecidableEq, Repr

/-- The node id string `` `R${round}-${i}` ``. -/
def mkId (r i : ℕ) : String :=
  "R" ++ toString r ++ "-" ++ toString i

/-- JavaScript truthiness of an optional string slot. -/
def truthy : Option String → Bool
  | some s => s != ""
  | none => false

/-- The round-1 bye auto-advance of the `computed` memo:
`if (match.a === 'BYE' && match.b) setResult(id, match.b, '');
else if (match.b === 'BYE' && match.a) setResult(id, match.a, '');`
returning the auto winner, if any. -/
def byeAuto (a b : Option String) : Option String :=
  if a = some "BYE" ∧ truthy b then b
  else if b = some "BYE" ∧ truthy a then a
  else none

/-- `setResult(id, winner, score)` from `Bracket.tsx` lines 81–83:
`setResults((prev) => ({ ...prev, [id]: { winner, score } }))`. -/
def setResult (results : String → Option MatchEntry) (id winner score : String) :
    String → Option MatchEntry :=
  Function.update results id (some ⟨winner, score⟩)

/-- Stabilized read of node `(r, i)`'s recorded result: round-1 bye pairings
always carry their auto entry (re-written on every evaluation), any other
node reads the accumulated `results` map. -/
def stableAt (teamNames : List String) (results : String → Option MatchEntry)
    (r i : ℕ) : Option MatchEntry :=
  if r = 1 then
    match (bracketPairs teamNames)[i]? with
    | some p =>
        match byeAuto p.1 p.2 with
        | some w => some ⟨w, ""⟩
        | none => results (mkId 1 i)
    | none => results (mkId 1 i)
  else results (mkId r i)

/-- Slot `a` of node `(r, i)`: the pair's first component in round 1, the
recorded winner of predecessor `(r−1, 2i)` in later rounds
(`match.a = results[prevLeft.id]?.winner`). -/
def slotA (teamNames : List String) (results : String → Option MatchEntry)
    (r i : ℕ) : Option String :=
  if r = 1 then ((bracketPairs teamNames)[i]?).bind (·.1)
  else (stableAt teamNames results (r - 1) (2 * i)).map (·.winner)

/-- Slot `b` of node `(r, i)`: second pair component / winner of `(r−1, 2i+1)`. -/
def slotB (teamNames : List String) (results : String → Option MatchEntry)
    (r i : ℕ) : Option String :=
  if r = 1 then ((bracketPairs teamNames)[i]?).bind (·.2)
  else (stableAt teamNames results (r - 1) (2 * i + 1)).map (·.winner)

/-- The winner-select options rendered for node `(r, i)`:
`{m.a && <option value={m.a}>}` and `{m.b && <option value={m.b}>}` — one
option per truthy slot (besides the empty "Select winner" option). -/
def selectOptions (teamNames : List String) (results : String → Option MatchEntry)
    (r i : ℕ) : List String :=
  (match slotA teamNames results r i with
   | some s => if s ≠ "" then [s] else []
   | none => []) ++
  (match slotB teamNames results r i with
   | some s => if s ≠ "" then [s] else []
   | none => [])

/-- The champion effect's read (`Bracket.tsx` lines 75–79):
`const champ = last && results[last.id]?.winner` for the single node of the
last round, truthy (non-empty) winners only. -/
def championOf (teamNames : List String) (results : String → Option MatchEntry) :
    Option String :=
  match stableAt teamNames results (numRounds teamNames) 0 with
  | some e => if e.winner ≠ "" then some e.winner else none
  | none => none

/-- The champion notifications over a sequence of consecutive `results`
states: the effect has `results` in its dependency array, so it re-runs on
every results change and calls `onChampion(champ)` whenever the final
winner is truthy. -/
def championEmissions (teamNames : List String)
    (states : List (String → Option MatchEntry)) : List String :=
  states.filterMap (championOf teamNames)

/-- Number of round-1 pairs produced by the `i += 2` pairing loop. -/
lemma pairUp_length : ∀ l : List String, (pairUp l).length = (l.length + 1) / 2
  | [] => rfl
  | [_] => by simp [pairUp]
  | _ :: _ :: rest => by
      have ih := pairUp_length rest
      simp only [pairUp, List.length_cons, ih]
      omega

/-- **C5**: a bracket from 5 named teams (names non-empty and distinct from
the bye marker) pads to 8 slots with 3 `"BYE"` placeholders, has 4 round-1
nodes, 2 round-2 nodes and 1 final node, and every round-1 node pairing a
real team with a bye is auto-resolved in favor of the real team with an
empty score. -/
theorem bracket_five_teams (ts : List String) (h5 : ts.length = 5)
    (hname : ∀ t ∈ ts, t ≠ "" ∧ t ≠ "BYE") :
    paddedTeams ts = ts ++ ["BYE", "BYE", "BYE"]
    ∧ (bracketPairs ts).length = 4
    ∧ roundSizes (bracketPairs ts).length = [4, 2, 1]
    ∧ numRounds ts = 3
    ∧ (∀ (i : ℕ) (t : String) (results : String → Option MatchEntry),
        ((bracketPairs ts)[i]? = some (some t, some "BYE")
          ∨ (bracketPairs ts)[i]? = some (some "BYE", some t)) →
        t ∈ ts →
        stableAt ts results 1 i = some ⟨t, ""⟩) := by
  have h8 : nextPowerOfTwo 5 = 8 := by decide
  have hpad : paddedTeams ts = ts ++ ["BYE", "BYE", "BYE"] := by
    unfold paddedTeams
    rw [h5, h8]
    rfl
  have hlen : (bracketPairs ts).length = 4 := by
    unfold bracketPairs
    rw [pairUp_length, hpad]
    simp [h5]
  refine ⟨hpad, hlen, ?_, ?_, ?_⟩
  · rw [hlen]
    decide
  · unfold numRounds
    rw [hlen]
    decide
  · intro i t results hpair htmem
    obtain ⟨hne, hnb⟩ := hname t htmem
    unfold stableAt
    rcases hpair with h | h <;>
      simp [h, byeAuto, truthy, hne, hnb]

/-- Witness for C5 at teams `T1…T5`: 3 byes are appended, the bracket has 3
rounds, and node `R1-2` (`T5` vs `BYE`) auto-resolves to `T5` with empty
score for the empty results map. -/
theorem bracket_five_teams_witness :
    paddedTeams ["T1", "T2", "T3", "T4", "T5"]
        = ["T1", "T2", "T3", "T4", "T5"] ++ ["BYE", "BYE", "BYE"]
    ∧ numRounds ["T1", "T2", "T3", "T4", "T5"] = 3
    ∧ stableAt ["T1", "T2", "T3", "T4", "T5"] (fun _ => none) 1 2
        = some ⟨"T5", ""⟩ := by
  have h := bracket_five_teams ["T1", "T2", "T3", "T4", "T5"] (by decide) (by decide)
  exact ⟨h.1, h.2.2.2.1,
    h.2.2.2.2 2 "T5" (fun _ => none) (Or.inl (by decide)) (by decide)⟩

/-- The empty accumulated-results map. -/
def noResults : String → Option MatchEntry := fun _ => none

/-- **C6 counterexample**: with teams `[A,B,C,D]` and no recorded results,
node `R2-0` has both input slots unresolved, yet `setResult` on it is not
rejected — it changes the accumulated-results map from no entry to
`{winner: "A", score: ""}`. -/
theorem setResult_unresolved_not_rejected_counterexample :
    slotA ["A", "B", "C", "D"] noResults 2 0 = none
    ∧ slotB ["A", "B", "C", "D"] noResults 2 0 = none
    ∧ setResult noResults "R2-0" "A" "" "R2-0" = some ⟨"A", ""⟩
    ∧ noResults "R2-0" = none := by
  decide

/-- **C6 (amended)**: `setResult` is unguarded: for every node id — including
one whose input slots are unresolved — it writes the given entry into the
accumulated-results map (leaving other keys unchanged); the only protection
is in the UI, whose winner select lists as options exactly the truthy slot
values, so a node with unresolved inputs offers no selectable winner. -/
theorem setResult_unguarded_amended :
    (∀ (results : String → Option MatchEntry) (id w s : String),
      setResult results id w s id = some ⟨w, s⟩
      ∧ ∀ id' : String, id' ≠ id → setResult results id w s id' = results id')
    ∧ (∀ (teamNames : List String) (results : String → Option MatchEntry)
        (r i : ℕ),
      slotA teamNames results r i = none → slotB teamNames results r i = none →
      selectOptions teamNames results r i = []) := by
  constructor
  · intro results id w s
    constructor
    · simp [setResult]
    · intro id' h
      simp [setResult, Function.update_noteq h]
  · intro teamNames results r i ha hb
    simp [selectOptions, ha, hb]

/-- Witness for the amended C6 theorem: a write on `R2-0` lands at `R2-0`,
leaves `R1-0` untouched, and the unresolved round-2 node offers no
selectable winner. -/
theorem setResult_unguarded_amended_witness :
    setResult noResults "R2-0" "A" "3-2" "R2-0" = some ⟨"A", "3-2"⟩
    ∧ setResult noResults "R2-0" "A" "3-2" "R1-0" = noResults "R1-0"
    ∧ selectOptions ["A", "B", "C", "D"] noResults 2 0 = [] := by
  refine ⟨(setResult_unguarded_amended.1 noResults "R2-0" "A" "3-2").1,
    (setResult_unguarded_amended.1 noResults "R2-0" "A" "3-2").2 "R1-0" (by decide),
    setResult_unguarded_amended.2 ["A", "B", "C", "D"] noResults 2 0
      (by decide) (by decide)⟩

/-- Results after recording `A` as winner of the final of a 2-team bracket. -/
def champResults1 : String → Option MatchEntry :=
  setResult (fun _ => none) "R1-0" "A" ""

/-- Results after additionally editing the score of the same node. -/
def champResults2 : String → Option MatchEntry :=
  setResult champResults1 "R1-0" "A" "3-2"

/-- **C7 counterexample**: in the 2-team bracket `[A,B]`, after `A` wins the
final, editing only the score re-runs the champion effect and notifies
`onChampion("A")` a second time although the champion did not change: the
emissions over the two consecutive states are `["A", "A"]`. -/
theorem champion_duplicate_notification_counterexample :
    championEmissions ["A", "B"] [champResults1, champResults2] = ["A", "A"]
    ∧ championOf ["A", "B"] champResults2 = championOf ["A", "B"] champResults1
    ∧ champResults2 "R1-0" ≠ champResults1 "R1-0" := by
  decide

/-- **C7 (amended)**: the champion effect has no memory of previously
reported champions: it fires on every change of the results map for which
the final node's winner is truthy, so the number of notifications carrying
champion `c` equals the number of post-change states whose champion is `c`
(rather than once per distinct champion value). -/
theorem champion_notification_per_state_amended
    (teamNames : List String) (states : List (String → Option MatchEntry))
    (c : String) :
    (championEmissions teamNames states).count c
      = (states.filter (fun r => championOf teamNames r = some c)).length := by
  induction states with
  | nil => rfl
  | cons s rest ih =>
    unfold championEmissions at ih ⊢
    rw [List.filterMap_cons, List.filter_cons]
    cases hs : championOf teamNames s with
    | some w =>
      by_cases hw : w = c
      · subst hw
        simp [List.count_cons, hs, ih]
      · simp [List.count_cons, hs, hw, ih]
    | none =>
      simp [hs, ih]

/-- **C10**: a round-1 node whose pair is `BYE` vs `BYE` is auto-resolved
with winner `"BYE"` and empty score, so the literal `"BYE"` string appears
as an input slot and as a selectable winner of the corresponding round-2
node; with 5 teams padded to 8 slots this happens at the tail pair `R1-3`. -/
theorem bye_vs_bye_auto_resolves (ts : List String)
    (results : String → Option MatchEntry) (i : ℕ)
    (hpair : (bracketPairs ts)[i]? = some (some "BYE", some "BYE")) :
    stableAt ts results 1 i = some ⟨"BYE", ""⟩
    ∧ (if i % 2 = 0 then slotA ts results 2 (i / 2)
       else slotB ts results 2 (i / 2)) = some "BYE"
    ∧ "BYE" ∈ selectOptions ts results 2 (i / 2)
    ∧ (bracketPairs ["T1", "T2", "T3", "T4", "T5"])[3]?
        = some (some "BYE", some "BYE") := by
  have hstable : stableAt ts results 1 i = some ⟨"BYE", ""⟩ := by
    unfold stableAt
    simp [hpair, byeAuto, truthy]
  have hslot : (if i % 2 = 0 then slotA ts results 2 (i / 2)
      else slotB ts results 2 (i / 2)) = some "BYE" := by
    by_cases hi : i % 2 = 0
    · have h2 : 2 * (i / 2) = i := by omega
      simp only [hi, if_true]
      unfold slotA
      simp [h2, hstable]
    · have h2 : 2 * (i / 2) + 1 = i := by omega
      simp only [hi, if_false]
      unfold slotB
      simp [h2, hstable]
  refine ⟨hstable, hslot, ?_, by decide⟩
  by_cases hi : i % 2 = 0
  · have ha : slotA ts results 2 (i / 2) = some "BYE" := by
      have := hslot
      rwa [if_pos hi] at this
    unfold selectOptions
    rw [ha]
    simp
  · have hb : slotB ts results 2 (i / 2) = some "BYE" := by
      have := hslot
      rwa [if_neg hi] at this
    unfold selectOptions
    rw [hb]
    simp

/-- Witness for C10 at teams `T1…T5`, node `R1-3` (`BYE` vs `BYE`): the node
auto-resolves to winner `"BYE"`, which feeds slot `b` of round-2 node 1 and
is offered among its selectable winners. -/
theorem bye_vs_bye_auto_resolves_witness :
    stableAt ["T1", "T2", "T3", "T4", "T5"] (fun _ => none) 1 3
        = some ⟨"BYE", ""⟩
    ∧ (if 3 % 2 = 0 then slotA ["T1", "T2", "T3", "T4", "T5"] (fun _ => none) 2 (3 / 2)
       else slotB ["T1", "T2", "T3", "T4", "T5"] (fun _ => none) 2 (3 / 2))
        = some "BYE"
    ∧ "BYE" ∈ selectOptions ["T1", "T2", "T3", "T4", "T5"] (fun _ => none) 2 (3 / 2) := by
  have h := bye_vs_bye_auto_resolves ["T1", "T2", "T3", "T4", "T5"]
    (fun _ => none) 3 (by decide)
  exact ⟨h.1, h.2.1, h.2.2.1⟩

/-! ## Public lobby countdown machine
(`src/components/lobby/PublicLobby.tsx`)

State slice relevant to queueing and the auto-start countdown.  The betting
market and Elo side effects of `reportResult` act on the shared `players`
list and the bet list and are modelled separately (settlement above); the
lobby-state reset of `reportResult` is embedded here.  Effects re-run after
every state change, so every operation is followed by `watchCountdown` (the
countdown watcher effect, lines 96–104); `tickCountdown` is one firing of
the 1-second interval (lines 107–132). -/

/-- `PublicLobby` state slice. -/
structure PubState where
  queueIds : List String
  countdown : Option ℕ
  inProgress : Bool
  lockedTeamA : List Player
  lockedTeamB : List Player
deriving DecidableEq, Repr

/-- Initial component state. -/
def pubInit : PubState := ⟨[], none, false, [], []⟩

/-- `const queue = queueIds.map((id) => players.find((p) => p.id === id)).filter(Boolean)`. -/
def queueOf (players : List Player) (st : PubState) : List Player :=
  st.queueIds.filterMap (fun id => players.find? (fun p => p.id = id))

/-- `toggleQueue(id)`: no-op during a live match, otherwise removes the id
if queued and appends it otherwise. -/
def toggleQueue (st : PubState) (id : String) : PubState :=
  if st.inProgress then st
  else { st with queueIds :=
    if st.queueIds.contains id then st.queueIds.filter (fun x => x ≠ id)
    else st.queueIds ++ [id] }

/-- First statement of the watcher effect:
`if (queue.length >= 8 && countdown === null) setCountdown(5)`. -/
def watchStart (players : List Player) (st : PubState) : PubState :=
  if 8 ≤ (queueOf players st).length ∧ st.countdown = none
  then { st with countdown := some 5 } else st

/-- Second statement of the watcher effect:
`if (queue.length < 8 && countdown !== null) setCountdown(null)`. -/
def watchCancel (players : List Player) (st : PubState) : PubState :=
  if (queueOf players st).length < 8 ∧ st.countdown ≠ none
  then { st with countdown := none } else st

/-- The countdown watcher effect (lines 96–104): early-returns while a match
is live, then runs the start and cancel rules in source order. -/
def watchCountdown (players : List Player) (st : PubState) : PubState :=
  if st.inProgress then st
  else watchCancel players (watchStart players st)

/-- The alternating-rank assignment `sorted.forEach((p, i) => i % 2 === 0 ?
a.push(p) : b.push(p))`. -/
def altSplit : List Player → List Player × List Player
  | [] => ([], [])
  | [x] => ([x], [])
  | x :: y :: rest =>
      let ab := altSplit rest
      (x :: ab.1, y :: ab.2)

/-- Lock step at countdown expiry: sort the queue by descending Elo (stable,
like the JS comparator `(a, b) => b.elo - a.elo`), take the top 8, split
alternately, mark the match live, clear the countdown. -/
def lockTop8 (players : List Player) (st : PubState) : PubState :=
  let sorted := ((queueOf players st).mergeSort (fun a b => b.elo ≤ a.elo)).take 8
  let ab := altSplit sorted
  { st with lockedTeamA := ab.1, lockedTeamB := ab.2,
            inProgress := true, countdown := none }

/-- One firing of the countdown interval: `setCountdown((c) => ...)` —
nothing when the countdown is cleared, lock at `c <= 1`, else decrement. -/
def tickCountdown (players : List Player) (st : PubState) : PubState :=
  match st.countdown with
  | none => st
  | some c => if c ≤ 1 then lockTop8 players st else { st with countdown := some (c - 1) }

/-- `teamA`/`teamB`: locked rosters when live, otherwise the tentative top-8
alternating split of the current queue. -/
def lobbyTeams (players : List Player) (st : PubState) : List Player × List Player :=
  if st.inProgress then (st.lockedTeamA, st.lockedTeamB)
  else altSplit (((queueOf players st).mergeSort (fun a b => b.elo ≤ a.elo)).take 8)

/-- The lobby-state reset slice of `reportResult(winner)`: requires 4 vs 4,
then clears queue, locked teams, live flag and countdown. -/
def reportResultReset (players : List Player) (st : PubState) : PubState :=
  let t := lobbyTeams players st
  if t.1.length ≠ 4 ∨ t.2.length ≠ 4 then st
  else { st with queueIds := [], lockedTeamA := [], lockedTeamB := [],
                 inProgress := false, countdown := none }

/-- States reachable from the initial lobby state; every caller-triggered or
timer-triggered mutation is followed by the watcher effect. -/
inductive PubReach (players : List Player) : PubState → Prop where
  | init : PubReach players pubInit
  | toggle (st : PubState) (id : String) :
      PubReach players st →
      PubReach players (watchCountdown players (toggleQueue st id))
  | tick (st : PubState) :
      PubReach players st →
      PubReach players (watchCountdown players (tickCountdown players st))
  | report (st : PubState) :
      PubReach players st →
      PubReach players (watchCountdown players (reportResultReset players st))

/-- The countdown invariant: a pending countdown implies the lobby is not
live and the queue holds at least 8 present players. -/
def PubInv (players : List Player) (st : PubState) : Prop :=
  st.countdown ≠ none → (st.inProgress = false ∧ 8 ≤ (queueOf players st).length)

/-- `watchStart` never changes the live flag. -/
lemma watchStart_inProgress (players : List Player) (st : PubState) :
    (watchStart players st).inProgress = st.inProgress := by
  unfold watchStart
  split <;> rfl

/-- `watchStart` never changes the queue. -/
lemma watchStart_queueIds (players : List Player) (st : PubState) :
    (watchStart players st).queueIds = st.queueIds := by
  unfold watchStart
  split <;> rfl

/-- `watchCancel` never changes the live flag. -/
lemma watchCancel_inProgress (players : List Player) (st : PubState) :
    (watchCancel players st).inProgress = st.inProgress := by
  unfold watchCancel
  split <;> rfl

/-- `watchCancel` never changes the queue. -/
lemma watchCancel_queueIds (players : List Player) (st : PubState) :
    (watchCancel players st).queueIds = st.queueIds := by
  unfold watchCancel
  split <;> rfl

/-- The derived queue only depends on the stored queue ids. -/
lemma queueOf_eq_of_queueIds (players : List Player) {st st' : PubState}
    (h : st.queueIds = st'.queueIds) :
    queueOf players st = queueOf players st' := by
  unfold queueOf
  rw [h]

/-- On a sub-8 queue, `watchCancel` always ends with no pending countdown. -/
lemma watchCancel_countdown_none (players : List Player) (st : PubState)
    (hlen : (queueOf players st).length < 8) :
    (watchCancel players st).countdown = none := by
  unfold watchCancel
  by_cases hca : st.countdown = none
  · rw [if_neg (fun hcon => hcon.2 hca)]
    exact hca
  · rw [if_pos ⟨hlen, hca⟩]

/-- On a non-live state the watcher effect runs both rules in order. -/
lemma watchCountdown_not_live (players : List Player) (st : PubState)
    (h : st.inProgress = false) :
    watchCountdown players st = watchCancel players (watchStart players st) := by
  unfold watchCountdown
  rw [h]
  simp

/-- After the watcher effect runs on a non-live state, the invariant holds
regardless of the input state. -/
lemma watchCountdown_establishes_inv (players : List Player) (st : PubState)
    (h : st.inProgress = false) : PubInv players (watchCountdown players st) := by
  have hw := watchCountdown_not_live players st h
  have hqB : queueOf players (watchCancel players (watchStart players st))
      = queueOf players st := by
    apply queueOf_eq_of_queueIds
    rw [watchCancel_queueIds, watchStart_queueIds]
  intro hcd
  rw [hw] at hcd
  constructor
  · rw [hw, watchCancel_inProgress, watchStart_inProgress, h]
  · rw [hw, hqB]
    by_contra hq
    have hlt : (queueOf players st).length < 8 := by omega
    have hlenA : (queueOf players (watchStart players st)).length < 8 := by
      rw [queueOf_eq_of_queueIds players (watchStart_queueIds players st)]
      exact hlt
    exact hcd (watchCancel_countdown_none players _ hlenA)

/-- `toggleQueue` never changes the live flag. -/
lemma toggleQueue_inProgress (st : PubState) (id : String) :
    (toggleQueue st id).inProgress = st.inProgress := by
  unfold toggleQueue
  split <;> rfl

/-- The watcher is the identity on live states. -/
lemma watchCountdown_live (players : List Player) (st : PubState)
    (h : st.inProgress = true) : watchCountdown players st = st := by
  unfold watchCountdown
  rw [h]
  rfl

/-- `reportResultReset` either rejects (wrong team sizes) or ends non-live. -/
lemma reportResultReset_cases (players : List Player) (st : PubState) :
    reportResultReset players st = st
    ∨ (reportResultReset players st).inProgress = false := by
  unfold reportResultReset
  by_cases hg : (lobbyTeams players st).1.length ≠ 4
      ∨ (lobbyTeams players st).2.length ≠ 4
  · left
    simp [hg]
  · right
    simp [hg]

/-- The countdown invariant holds in every reachable lobby state. -/
theorem pubInv_reachable (players : List Player) (st : PubState)
    (h : PubReach players st) : PubInv players st := by
  induction h with
  | init =>
      intro hc
      exact absurd rfl hc
  | toggle st id _ ih =>
      by_cases hip : st.inProgress = true
      · have h1 : toggleQueue st id = st := by
          unfold toggleQueue
          rw [hip]
          rfl
        rw [h1, watchCountdown_live players st hip]
        exact ih
      · have hip' : st.inProgress = false := by
          cases hb : st.inProgress
          · rfl
          · exact absurd hb hip
        exact watchCountdown_establishes_inv players _
          ((toggleQueue_inProgress st id).trans hip')
  | tick st _ ih =>
      by_cases hip : st.inProgress = true
      · have hcd : st.countdown = none := by
          by_contra hne
          have := (ih hne).1
          rw [hip] at this
          exact Bool.true_eq_false.mp this
        have h1 : tickCountdown players st = st := by
          unfold tickCountdown
          rw [hcd]
        rw [h1, watchCountdown_live players st hip]
        exact ih
      · have hip' : st.inProgress = false := by
          cases hb : st.inProgress
          · rfl
          · exact absurd hb hip
        cases hcd : st.countdown with
        | none =>
            have h1 : tickCountdown players st = st := by
              unfold tickCountdown
              rw [hcd]
            rw [h1]
            exact watchCountdown_establishes_inv players st hip'
        | some c =>
            by_cases hc1 : c ≤ 1
            · have h1 : tickCountdown players st = lockTop8 players st := by
                unfold tickCountdown
                rw [hcd]
                simp [hc1]
              have h2 : (lockTop8 players st).inProgress = true := rfl
              have h3 : (lockTop8 players st).countdown = none := rfl
              rw [h1, watchCountdown_live players _ h2]
              intro hcon
              exact absurd h3 hcon
            · have h1 : tickCountdown players st
                  = { st with countdown := some (c - 1) } := by
                unfold tickCountdown
                rw [hcd]
                simp [hc1]
              rw [h1]
              exact watchCountdown_establishes_inv players _ hip'
  | report st _ ih =>
      rcases reportResultReset_cases players st with h1 | h1
      · rw [h1]
        by_cases hip : st.inProgress = true
        · rw [watchCountdown_live players st hip]
          exact ih
        · have hip' : st.inProgress = false := by
            cases hb : st.inProgress
            · rfl
            · exact absurd hb hip
          exact watchCountdown_establishes_inv players st hip'
      · exact watchCountdown_establishes_inv players _ h1

/-- **C8**: in the public lobby, while not live, a pending countdown implies
at least 8 queued players (in every reachable state); when a queue change
brings the count to 8 or more with no pending countdown, the watcher starts
it at 5 seconds (in particular a restart after a cancellation begins at 5
again, never resuming a previous remainder); and when a queue change drops
the count below 8, the watcher leaves no countdown pending. -/
theorem public_lobby_countdown_state (players : List Player) :
    (∀ st : PubState, PubReach players st →
      st.inProgress = false → st.countdown ≠ none →
      8 ≤ (queueOf players st).length)
    ∧ (∀ (st : PubState) (id : String),
      st.inProgress = false → st.countdown = none →
      8 ≤ (queueOf players (toggleQueue st id)).length →
      (watchCountdown players (toggleQueue st id)).countdown = some 5)
    ∧ (∀ (st : PubState) (id : String),
      st.inProgress = false →
      (queueOf players (toggleQueue st id)).length < 8 →
      (watchCountdown players (toggleQueue st id)).countdown = none) := by
  refine ⟨?_, ?_, ?_⟩
  · intro st hreach _ hcd
    exact (pubInv_reachable players st hreach hcd).2
  · intro st id hip hcd hq
    have hip' : (toggleQueue st id).inProgress = false :=
      (toggleQueue_inProgress st id).trans hip
    have hcd' : (toggleQueue st id).countdown = none := by
      unfold toggleQueue
      rw [hip]
      simpa using hcd
    rw [watchCountdown_not_live players _ hip']
    have hA : watchStart players (toggleQueue st id)
        = { toggleQueue st id with countdown := some 5 } := by
      unfold watchStart
      rw [if_pos ⟨hq, hcd'⟩]
    rw [hA]
    unfold watchCancel
    rw [if_neg]
    intro hcon
    have hlt : (queueOf players (toggleQueue st id)).length < 8 := hcon.1
    omega
  · intro st id hip hq
    have hip' : (toggleQueue st id).inProgress = false :=
      (toggleQueue_inProgress st id).trans hip
    rw [watchCountdown_not_live players _ hip']
    apply watchCancel_countdown_none
    rw [queueOf_eq_of_queueIds players (watchStart_queueIds players _)]
    exact hq

/-- Fixed 8-player roster for the witness lobby. -/
def pubPlayers8 : List Player :=
  [⟨"p1", "P1", 1000, 0⟩, ⟨"p2", "P2", 1000, 0⟩, ⟨"p3", "P3", 1000, 0⟩,
   ⟨"p4", "P4", 1000, 0⟩, ⟨"p5", "P5", 1000, 0⟩, ⟨"p6", "P6", 1000, 0⟩,
   ⟨"p7", "P7", 1000, 0⟩, ⟨"p8", "P8", 1000, 0⟩]

/-- One join step (toggle followed by the watcher effect). -/
def pubJoin (st : PubState) (id : String) : PubState :=
  watchCountdown pubPlayers8 (toggleQueue st id)

/-- Lobby after `p1 … p7` joined. -/
def pubSt7 : PubState :=
  pubJoin (pubJoin (pubJoin (pubJoin (pubJoin (pubJoin
    (pubJoin pubInit "p1") "p2") "p3") "p4") "p5") "p6") "p7"

/-- Lobby after all eight players joined. -/
def pubSt8 : PubState := pubJoin pubSt7 "p8"

/-- Witness for C8: after 8 joins the reachable state has 8 queued players
and its pending countdown implies so; the 8th join starts the countdown at
5; a leave from the full queue cancels it; and a re-join after the
cancellation starts again at 5. -/
theorem public_lobby_countdown_state_witness :
    8 ≤ (queueOf pubPlayers8 pubSt8).length
    ∧ (watchCountdown pubPlayers8 (toggleQueue pubSt7 "p8")).countdown = some 5
    ∧ (watchCountdown pubPlayers8 (toggleQueue pubSt8 "p1")).countdown = none
    ∧ (watchCountdown pubPlayers8 (toggleQueue
        (watchCountdown pubPlayers8 (toggleQueue pubSt8 "p1")) "p1")).countdown
        = some 5 := by
  have h := public_lobby_countdown_state pubPlayers8
  have hreach : PubReach pubPlayers8 pubSt8 :=
    PubReach.toggle _ "p8" (PubReach.toggle _ "p7" (PubReach.toggle _ "p6"
      (PubReach.toggle _ "p5" (PubReach.toggle _ "p4" (PubReach.toggle _ "p3"
        (PubReach.toggle _ "p2" (PubReach.toggle _ "p1" PubReach.init)))))))
  refine ⟨h.1 pubSt8 hreach (by decide) (by decide), ?_, ?_, ?_⟩
  · exact h.2.1 pubSt7 "p8" (by decide) (by decide) (by decide)
  · exact h.2.2 pubSt8 "p1" (by decide) (by decide)
  · exact h.2.1 (watchCountdown pubPlayers8 (toggleQueue pubSt8 "p1")) "p1"
      (by decide) (by decide) (by decide)

/-! ## Auction draft bidding
(`src/components/tournament/modes/AuctionDraft.tsx`)

State slice for the bidding round: `budgets`, `bids` and `won` are
JavaScript `Record`s embedded as `String → Option _`; `timerSeconds` can be
driven below zero by the ticking interval, so it is `ℤ`. -/

/-- `AuctionDraft` state slice. -/
structure AuctionState where
  budgets : String → Option ℕ
  nominatedId : Option String
  bids : String → Option ℕ
  won : String → Option (List String)
  timerSeconds : ℤ
  nominatorIndex : ℕ

/-- `extendRoundTimer(seconds = 3)`:
`setTimerSeconds((prev) => Math.max(0, prev) + seconds)`. -/
def extendRoundTimer (st : AuctionState) (seconds : ℤ := 3) : AuctionState :=
  { st with timerSeconds := max 0 st.timerSeconds + seconds }

/-- `const nominated = nominatedId ? players.find((p) => p.id === nominatedId) ?? null : null`. -/
def nominatedPlayer (players : List Player) (st : AuctionState) : Option Player :=
  st.nominatedId.bind (fun nid => players.find? (fun p => p.id = nid))

/-- `bid(teamName, step = 10)` from `AuctionDraft.tsx` lines 176–188: no-op
without a nominated player or with no time left; otherwise the bid map is
updated only when the new total stays within the team's budget, and the
round timer is extended afterwards. -/
def bid (players : List Player) (st : AuctionState) (teamName : String)
    (step : ℕ := 10) : AuctionState :=
  if nominatedPlayer players st = none ∨ st.timerSeconds ≤ 0 then st
  else
    let current := (st.bids teamName).getD 0
    let next := current + step
    let bids' := if (st.budgets teamName).getD 0 < next then st.bids
                 else Function.update st.bids teamName (some next)
    extendRoundTimer { st with bids := bids' }

/-- Player list for the auction scenario. -/
def auctionPlayers0 : List Player := [⟨"p1", "P1", 1000, 0⟩]

/-- Auction state: `p1` nominated, 10 s left, team `T` holds bid 15 with a
remaining budget of 20. -/
def auctionSt0 : AuctionState :=
  { budgets := fun t => if t = "T" then some 20 else none
    nominatedId := some "p1"
    bids := fun t => if t = "T" then some 15 else none
    won := fun _ => none
    timerSeconds := 10
    nominatorIndex := 0 }

/-- **C9 counterexample**: raising team `T`'s bid by 10 would reach 25 > 20,
so the bid map stays at 15 — but the rejection is not local: the round timer
is still extended from 10 to 13 seconds. -/
theorem bid_over_budget_extends_timer_counterexample :
    (bid auctionPlayers0 auctionSt0 "T" 10).bids "T" = some 15
    ∧ auctionSt0.timerSeconds = 10
    ∧ (bid auctionPlayers0 auctionSt0 "T" 10).timerSeconds = 13
    ∧ (bid auctionPlayers0 auctionSt0 "T" 10).timerSeconds
        ≠ auctionSt0.timerSeconds := by
  refine ⟨?_, rfl, rfl, by decide⟩
  show (if ((auctionSt0.budgets "T").getD 0 < (auctionSt0.bids "T").getD 0 + 10)
      then auctionSt0.bids
      else Function.update auctionSt0.bids "T"
        (some ((auctionSt0.bids "T").getD 0 + 10))) "T" = some 15
  rw [if_pos (by decide)]
  decide

/-- **C9 (amended)**: a bid whose new total would exceed the bidding owner's
remaining budget leaves the bid map, the budgets and the rosters unchanged,
but the rejection is not fully local: the round timer is still extended by
the per-bid extension (`max 0 timer + 3`), exactly as for an accepted bid. -/
theorem bid_over_budget_amended (players : List Player) (st : AuctionState)
    (teamName : String) (step : ℕ)
    (hnom : nominatedPlayer players st ≠ none)
    (htime : 0 < st.timerSeconds)
    (hover : (st.budgets teamName).getD 0 < (st.bids teamName).getD 0 + step) :
    (bid players st teamName step).bids = st.bids
    ∧ (bid players st teamName step).budgets = st.budgets
    ∧ (bid players st teamName step).won = st.won
    ∧ (bid players st teamName step).timerSeconds = max 0 st.timerSeconds + 3 := by
  have hguard : ¬ (nominatedPlayer players st = none ∨ st.timerSeconds ≤ 0) := by
    intro hcon
    rcases hcon with h | h
    · exact hnom h
    · omega
  unfold bid
  rw [if_neg hguard]
  simp only [if_pos hover]
  exact ⟨rfl, rfl, rfl, rfl⟩

/-- Witness for the amended C9 theorem at the concrete over-budget bid. -/
theorem bid_over_budget_amended_witness :
    (bid auctionPlayers0 auctionSt0 "T" 10).bids = auctionSt0.bids
    ∧ (bid auctionPlayers0 auctionSt0 "T" 10).budgets = auctionSt0.budgets
    ∧ (bid auctionPlayers0 auctionSt0 "T" 10).won = auctionSt0.won
    ∧ (bid auctionPlayers0 auctionSt0 "T" 10).timerSeconds
        = max 0 auctionSt0.timerSeconds + 3 :=
  bid_over_budget_amended auctionPlayers0 auctionSt0 "T" 10
    (by decide) (by decide) (by decide)

end DiscordActivity
